import Mathlib

/-!
Verification development for the ServX cloud-storage server.

The definitions below are a shallow embedding of the Python sources in
Server/database.py, Server/config.py and Server/routes.py.  The JSON
document store is modelled as association lists keyed by strings, the
filesystem of shared-folder directories as a list of folder ids, and the
per-request handlers as pure functions from their inputs (the session
username, the form fields, a fresh directory scan) to an outcome value.
Helpers that live in the Server/utils.py module, which is referenced by
routes.py but is not part of the sources, are modelled from the
specification and are marked as such in their doc comments.
-/

namespace ServX

/-! ## Association lists (model of Python dict) -/

/-- Lookup in an association list, first matching key wins.  Models read
access to a Python dict (whose keys are unique). -/
def alookup {α : Type} : List (String × α) → String → Option α
  | [], _ => none
  | (k, v) :: rest, key => if k = key then some v else alookup rest key

/-- Write a key to an association list, replacing any existing binding
for that key (appends at the end when the key is fresh).  Models Python
dict assignment. -/
def aset {α : Type} : List (String × α) → String → α → List (String × α)
  | [], key, v => [(key, v)]
  | (k, w) :: rest, key, v =>
      if k = key then (k, v) :: aset rest key v else (k, w) :: aset rest key v

/-- Remove every binding of a key from an association list.  Models a
Python dict del statement. -/
def aremove {α : Type} : List (String × α) → String → List (String × α)
  | [], _ => []
  | (k, w) :: rest, key =>
      if k = key then aremove rest key else (k, w) :: aremove rest key

theorem alookup_aset_self {α : Type} (m : List (String × α)) (k : String) (v : α) :
    alookup (aset m k v) k = some v := by
  induction m with
  | nil => simp [aset, alookup]
  | cons hd tl ih =>
      obtain ⟨k0, v0⟩ := hd
      by_cases h : k0 = k <;> simp [aset, alookup, h, ih]

theorem alookup_aset_ne {α : Type} (m : List (String × α)) (k k' : String) (v : α)
    (h : k' ≠ k) : alookup (aset m k v) k' = alookup m k' := by
  induction m with
  | nil => simp [aset, alookup, Ne.symm h]
  | cons hd tl ih =>
      obtain ⟨k0, v0⟩ := hd
      by_cases h0 : k0 = k
      · subst h0
        simp [aset, alookup, Ne.symm h, ih]
      · by_cases h1 : k0 = k' <;> simp [aset, alookup, h0, h1, h, ih]

theorem alookup_aremove_self {α : Type} (m : List (String × α)) (k : String) :
    alookup (aremove m k) k = none := by
  induction m with
  | nil => simp [aremove, alookup]
  | cons hd tl ih =>
      obtain ⟨k0, v0⟩ := hd
      by_cases h : k0 = k <;> simp [aremove, alookup, h, ih]

theorem alookup_aremove_ne {α : Type} (m : List (String × α)) (k k' : String)
    (h : k' ≠ k) : alookup (aremove m k) k' = alookup m k' := by
  induction m with
  | nil => simp [aremove]
  | cons hd tl ih =>
      obtain ⟨k0, v0⟩ := hd
      by_cases h0 : k0 = k
      · subst h0
        simp [aremove, alookup, Ne.symm h, ih]
      · by_cases h1 : k0 = k' <;> simp [aremove, alookup, h0, h1, h, ih]

/-! ## Data model (Server/database.py) -/

/-- One user record of the users map, fields as written by create_user. -/
structure UserRec where
  email : String
  salt : String
  password : String
  created_at : String
  last_active : String
  storage_used : Nat
  storage_limit : Nat
deriving DecidableEq

/-- One shared-folder record, fields as written by create_shared_folder. -/
structure FolderRec where
  name : String
  owner : String
  shared_with : List String
  created_at : String
deriving DecidableEq

/-- The persisted JSON document: users and shared_folders maps. -/
structure Doc where
  users : List (String × UserRec)
  shared_folders : List (String × FolderRec)
deriving DecidableEq

/-- The empty document written by init_db. -/
def emptyDoc : Doc := ⟨[], []⟩

/-- State of the store file on disk: absent, present but not valid JSON,
or present holding a parsed document. -/
inductive StoreFile where
  | missing
  | corrupt
  | valid (d : Doc)
deriving DecidableEq

/-- Model of init_db: writes the empty document only when the file does
not exist (a corrupt file exists, so it is left untouched). -/
def init_db : StoreFile → StoreFile
  | .missing => .valid emptyDoc
  | fs => fs

/-- Model of load_db: returns the parsed document on success; on a
missing file or a parse failure it calls init_db and returns the empty
document.  The second component is the file state afterwards.  The
function is total: it never propagates an error to the caller. -/
def load_db : StoreFile → Doc × StoreFile
  | .valid d => (d, .valid d)
  | fs => (emptyDoc, init_db fs)

/-- Model of create_user: reject a duplicate username, reject when ten
users are already registered (the bound is the literal 10 in the source),
otherwise insert the new record with storage_used zero and both
timestamps set to the current time, and report success.  The clock is
passed in as the string now. -/
def create_user (d : Doc) (username email salt hashed_password : String)
    (storage_limit : Nat) (now : String) : Bool × String × Doc :=
  if (alookup d.users username).isSome then
    (false, "Username already exists", d)
  else if d.users.length ≥ 10 then
    (false, "Maximum number of users reached", d)
  else
    let newUser : UserRec := ⟨email, salt, hashed_password, now, now, 0, storage_limit⟩
    (true, "User created successfully", { d with users := aset d.users username newUser })

/-- Model of get_user. -/
def get_user (d : Doc) (username : String) : Option UserRec :=
  alookup d.users username

/-- Model of update_user_activity: when the user exists, set last_active
to now and save; otherwise do nothing.  The result is the document passed
to save_db, or none when no save happens. -/
def update_user_activity (d : Doc) (username now : String) : Option Doc :=
  match alookup d.users username with
  | none => none
  | some u => some { d with users := aset d.users username { u with last_active := now } }

/-- Model of update_user_storage: when the user exists, set storage_used
and save; otherwise do nothing. -/
def update_user_storage (d : Doc) (username : String) (storage_used : Nat) : Option Doc :=
  match alookup d.users username with
  | none => none
  | some u => some { d with users := aset d.users username { u with storage_used := storage_used } }

/-- Model of create_shared_folder: insert the folder record. -/
def create_shared_folder (d : Doc) (folder_id folder_name owner : String)
    (shared_with : List String) (now : String) : Doc :=
  let rec0 : FolderRec := ⟨folder_name, owner, shared_with, now⟩
  { d with shared_folders := aset d.shared_folders folder_id rec0 }

/-- Model of get_shared_folder. -/
def get_shared_folder (d : Doc) (folder_id : String) : Option FolderRec :=
  alookup d.shared_folders folder_id

/-- Model of delete_shared_folder: remove the record and save when it is
present, returning true; otherwise return false without saving. -/
def delete_shared_folder (d : Doc) (folder_id : String) : Doc × Bool :=
  if (alookup d.shared_folders folder_id).isSome then
    ({ d with shared_folders := aremove d.shared_folders folder_id }, true)
  else
    (d, false)

/-- Model of can_access_folder: false when the folder is absent, else
true exactly for the owner and the members of shared_with. -/
def can_access_folder (d : Doc) (username folder_id : String) : Bool :=
  match get_shared_folder d folder_id with
  | none => false
  | some f => f.owner == username || f.shared_with.contains username

/-! ## Configuration (Server/config.py) -/

/-- Model of the MAX_USERS configuration value: the integer value of the
MAX_USERS environment variable, defaulting to 10.  The environment is
modelled as the already-parsed optional value. -/
def MAX_USERS (envMaxUsers : Option Nat) : Nat :=
  envMaxUsers.getD 10

/-- The fields of ProductionConfig that the claims concern. -/
structure ProdCfg where
  debug : Bool
  session_cookie_secure : Bool
  secret_key : Option String
deriving DecidableEq

/-- Model of ProductionConfig: debug off, secure session cookies forced
on, and the secret key taken from the environment with no fallback and
no validation (the check that would reject a missing key is commented
out in the source), so configuration always succeeds. -/
def productionConfig (envSecretKey : Option String) : ProdCfg :=
  ⟨false, true, envSecretKey⟩

/-! ## Filename helpers (Server/utils.py, modelled from the spec) -/

/-- The null character, which safe_filename must defend against. -/
def NUL : Char := Char.ofNat 0

/-- Path separator characters stripped by safe_filename. -/
def isSep (c : Char) : Bool := c == '/' || c == '\\'

/-- Split a character list into the segments delimited by path
separators; the separators themselves are dropped. -/
def splitSegsAux : List Char → List Char → List (List Char)
  | [], acc => [acc.reverse]
  | c :: rest, acc =>
      if isSep c then acc.reverse :: splitSegsAux rest []
      else splitSegsAux rest (c :: acc)

/-- A segment survives sanitisation when it is not empty, not the dot
segment and not the dot-dot segment. -/
def goodSeg (seg : List Char) : Bool :=
  decide (seg ≠ [] ∧ seg ≠ ['.'] ∧ seg ≠ ['.', '.'])

/-- Collapse the surviving segments into a single basename, joining with
an underscore. -/
def joinSegs : List (List Char) → List Char
  | [] => []
  | [s] => s
  | s :: t :: rest => s ++ '_' :: joinSegs (t :: rest)

/-- Modelled from the spec: the sanitisation core of safe_filename from
the utils module (not among the sources).  Strips null bytes, splits on
path separators, drops empty, dot and dot-dot segments, and collapses
the rest to a single filesystem-safe basename. -/
def cleanName (l : List Char) : List Char :=
  joinSegs ((splitSegsAux (l.filter (fun c => decide (c ≠ NUL))) []).filter goodSeg)

/-- Split a basename into stem and extension at the last dot; when there
is no dot the extension is empty. -/
def splitExt (l : List Char) : List Char × List Char :=
  let r := l.reverse
  let rext := r.takeWhile (fun c => decide (c ≠ '.'))
  if rext.length = r.length then (l, [])
  else ((r.drop (rext.length + 1)).reverse, '.' :: rext.reverse)

/-- Little-endian decimal digit characters of a number; the first
argument is structural fuel, always called with fuel at least n. -/
def natDigitsAux : Nat → Nat → List Char
  | 0, _ => []
  | _ + 1, 0 => []
  | fuel + 1, n + 1 => Nat.digitChar ((n + 1) % 10) :: natDigitsAux fuel ((n + 1) / 10)

/-- Decimal digit characters of a number, most significant first. -/
def natDigits (n : Nat) : List Char := (natDigitsAux n n).reverse

/-- Numeric value of a decimal digit character (inverse of
Nat.digitChar on digits below ten, which are code points 48 to 57). -/
def charDigitVal (c : Char) : Nat := c.toNat - 48

/-- Read back a little-endian digit character list as a number. -/
def ofDigitsChar : List Char → Nat
  | [] => 0
  | c :: rest => charDigitVal c + 10 * ofDigitsChar rest

/-- Modelled from the spec: safe_filename from the utils module (not
among the sources).  Produces a filesystem-safe basename of the input;
a positive disambiguator is appended as a numeric suffix before the
extension to avoid collisions. -/
def safe_filename (orig : String) (d : Nat) : String :=
  let base := cleanName orig.data
  if d = 0 then ⟨base⟩
  else
    let se := splitExt base
    ⟨se.1 ++ '_' :: natDigits d ++ se.2⟩

/-- A returned name resolves inside its target directory: it contains no
path separator and no null byte (so joining it to the directory stays
below the directory), and it is not the dot-dot name. -/
def resolvesInside (name : String) : Prop :=
  (∀ c ∈ name.data, isSep c = false ∧ c ≠ NUL) ∧ name ≠ ⟨['.', '.']⟩

/-! ## Folder ids (Server/routes.py, create_folder) -/

/-- Hex character of the low four bits of a number. -/
def hexDigitChar (n : Nat) : Char := Nat.digitChar (n % 16)

/-- Hex encoding of a byte list, two characters per byte, as produced by
the token_hex function of the secrets module. -/
def token_hex_chars : List Nat → List Char
  | [] => []
  | b :: rest => hexDigitChar (b / 16) :: hexDigitChar b :: token_hex_chars rest

/-- Model of secrets.token_hex applied to a draw of random bytes. -/
def token_hex (bytes : List Nat) : String := ⟨token_hex_chars bytes⟩

/-- Number of random bytes drawn for a folder id in create_folder:
the literal argument of token_hex in the source. -/
def folderIdBytes : Nat := 8

/-- Model of the create_folder handler for a logged-in user: empty name
or empty shared-with list is rejected; otherwise a folder id is derived
from the random draw and the record is persisted.  The random draw of
token_hex is passed in as the byte list bytes, whose length the route
fixes to folderIdBytes. -/
def create_folder (d : Doc) (username folder_name : String)
    (shared_with_users : List String) (bytes : List Nat) (now : String) :
    Option (String × Doc) :=
  if folder_name = "" then none
  else if shared_with_users = [] then none
  else
    let folder_id := token_hex bytes
    some (folder_id, create_shared_folder d folder_id folder_name username shared_with_users now)

/-! ## Upload handlers (Server/routes.py) -/

/-- Outcome of the personal upload handler, one constructor per flash
message and redirect the source can produce. -/
inductive UploadOutcome where
  | noFile
  | typeNotAllowed
  | quotaDenied
  | saved (filename : String)
deriving DecidableEq

/-- True exactly on the saved outcome. -/
def UploadOutcome.isSaved : UploadOutcome → Bool
  | .saved _ => true
  | _ => false

/-- The duplicate-avoidance loop shared by the upload handlers: starting
from disambiguator c, re-derive safe_filename and advance until the
candidate is not an existing directory entry.  The while loop of the
source is unbounded; here it carries fuel, and the termination theorem
shows the fuel the callers pass is never exhausted.  Returns the free
name together with the disambiguator that produced it (which equals the
number of loop iterations executed when started at zero). -/
def dup_loop (dir : List String) (orig : String) : Nat → Nat → Option (String × Nat)
  | 0, _ => none
  | fuel + 1, c =>
      let name := safe_filename orig c
      if dir.contains name then dup_loop dir orig fuel (c + 1)
      else some (name, c)

/-- Model of the upload_file handler for a logged-in user.  The helpers
imported from the utils module are passed in: allowed models
allowed_file, used models the fresh get_directory_size scan of the
user storage root, and dir models the set of names already present
there.  size is the size of the incoming file and limit the configured
per-user storage limit. -/
def upload_file (allowed : String → Bool) (fileProvided : Bool) (orig : String)
    (used size limit : Nat) (dir : List String) : UploadOutcome :=
  if ¬ fileProvided then .noFile
  else if orig = "" then .noFile
  else if ¬ allowed orig then .typeNotAllowed
  else if used + size > limit then .quotaDenied
  else
    match dup_loop dir orig (dir.length + 2) 0 with
    | some (name, _) => .saved name
    | none => .saved ""

/-! ## Shared-folder handlers (Server/routes.py) -/

/-- Outcome of the member-guarded view handler: the single generic
denial (flash of the access message and redirect), or the rendered
folder. -/
inductive AccessOutcome where
  | denied
  | ok (info : FolderRec)
deriving DecidableEq

/-- Model of the view_shared_folder handler for a logged-in user: the
guard is can_access_folder, and every failure of it produces the one
generic denial. -/
def view_shared_folder (d : Doc) (username folder_id : String) : AccessOutcome :=
  if ¬ can_access_folder d username folder_id then .denied
  else
    match get_shared_folder d folder_id with
    | some info => .ok info
    | none => .denied

/-- Outcome of the upload_to_shared handler. -/
inductive SharedUploadOutcome where
  | accessDenied
  | noFile
  | typeNotAllowed
  | saved (filename : String)
deriving DecidableEq

/-- Model of the upload_to_shared handler for a logged-in user, with the
same guard as the view handler followed by the upload steps (no quota
check applies to shared folders). -/
def upload_to_shared (d : Doc) (username folder_id : String)
    (allowed : String → Bool) (fileProvided : Bool) (orig : String)
    (dir : List String) : SharedUploadOutcome :=
  if ¬ can_access_folder d username folder_id then .accessDenied
  else if ¬ fileProvided then .noFile
  else if orig = "" then .noFile
  else if ¬ allowed orig then .typeNotAllowed
  else
    match dup_loop dir orig (dir.length + 2) 0 with
    | some (name, _) => .saved name
    | none => .saved ""

/-- Model of os.path.basename for the slash separator: the part of the
path after the last slash. -/
def basename (s : String) : String :=
  ⟨(s.data.reverse.takeWhile (fun c => decide (c ≠ '/'))).reverse⟩

/-- Outcome of the download_shared_file handler. -/
inductive SharedDownloadOutcome where
  | accessDenied
  | notFound
  | sent (filename : String)
deriving DecidableEq

/-- Model of the download_shared_file handler for a logged-in user: the
same can_access_folder guard with the same generic denial, then the
basename of the requested path is looked up in the folder directory and
either sent or reported missing. -/
def download_shared_file (d : Doc) (username folder_id : String)
    (dir : List String) (filename : String) : SharedDownloadOutcome :=
  if ¬ can_access_folder d username folder_id then .accessDenied
  else
    let base := basename filename
    if dir.contains base then .sent base else .notFound

/-- Outcome of the delete_shared_file handler. -/
inductive SharedDeleteFileOutcome where
  | accessDenied
  | notFound
  | deleted (filename : String)
deriving DecidableEq

/-- Model of the delete_shared_file handler for a logged-in user: the
same can_access_folder guard with the same generic denial, then the
basename is checked for existence and removed from the folder
directory.  The second component is the directory afterwards. -/
def delete_shared_file (d : Doc) (username folder_id : String)
    (dir : List String) (filename : String) :
    SharedDeleteFileOutcome × List String :=
  if ¬ can_access_folder d username folder_id then (.accessDenied, dir)
  else
    let base := basename filename
    if ¬ dir.contains base then (.notFound, dir)
    else (.deleted base, dir.filter (fun y => decide (y ≠ base)))

/-- Outcome of the delete_folder handler, one constructor per flash
message of the source. -/
inductive DeleteOutcome where
  | notFound
  | notOwner
  | deleted (name : String)
deriving DecidableEq

/-- Observable filesystem and store events of the delete_folder handler,
recorded in execution order. -/
inductive Ev where
  | rmTree (folder_id : String)
  | dbDelete (folder_id : String)
deriving DecidableEq

/-- Combined state the delete_folder handler acts on: the persisted
document and the set of shared-folder directories on disk. -/
structure SysState where
  db : Doc
  dirs : List String
deriving DecidableEq

/-- Model of ensure_directory_exists at the shared root: makes the
directory of a folder id present. -/
def ensure_dir (dirs : List String) (folder_id : String) : List String :=
  if dirs.contains folder_id then dirs else folder_id :: dirs

/-- Model of the delete_folder handler for a logged-in user: a missing
record reports not-found, a non-owner is refused, and otherwise the
directory tree is removed first (get_shared_folder_path re-creates it
before the existence test, so the removal branch is always taken) and
the record is deleted afterwards.  The event list records the order of
the two removals. -/
def delete_folder (s : SysState) (username folder_id : String) :
    DeleteOutcome × SysState × List Ev :=
  match get_shared_folder s.db folder_id with
  | none => (.notFound, s, [])
  | some info =>
      if info.owner ≠ username then (.notOwner, s, [])
      else
        let dirs1 := ensure_dir s.dirs folder_id
        let step1 : List String × List Ev :=
          if dirs1.contains folder_id then
            (dirs1.filter (fun x => decide (x ≠ folder_id)), [Ev.rmTree folder_id])
          else (dirs1, [])
        let step2 := delete_shared_folder s.db folder_id
        let ev2 : List Ev := if step2.2 then [Ev.dbDelete folder_id] else []
        (.deleted info.name, ⟨step2.1, step1.1⟩, step1.2 ++ ev2)

/-! ## Shared example states used by concrete instantiations -/

/-- A user record with placeholder field values. -/
def dummyUser : UserRec := ⟨"e", "s", "p", "t0", "t0", 0, 0⟩

/-- A folder owned by alice and shared with carol only. -/
def exFolder : FolderRec := ⟨"Team", "alice", ["carol"], "t0"⟩

/-- A document holding the folder f1 and no users. -/
def exDb : Doc := ⟨[], [("f1", exFolder)]⟩

/-- A document holding the single user alice. -/
def exUserDoc : Doc := ⟨[("alice", dummyUser)], [("f1", exFolder)]⟩

/-- A document already holding ten users. -/
def tenUsersDoc : Doc :=
  ⟨[("u0", dummyUser), ("u1", dummyUser), ("u2", dummyUser), ("u3", dummyUser),
    ("u4", dummyUser), ("u5", dummyUser), ("u6", dummyUser), ("u7", dummyUser),
    ("u8", dummyUser), ("u9", dummyUser)], []⟩

/-! ## Claim theorems -/

/-- Claim C7: load_db never raises: a missing file and an unparseable file
both reinitialise via init_db and yield the empty document, and a
parseable file yields exactly the parsed document. -/
theorem load_db_total (d : Doc) :
    load_db .missing = (emptyDoc, init_db .missing)
    ∧ init_db .missing = .valid emptyDoc
    ∧ load_db .corrupt = (emptyDoc, init_db .corrupt)
    ∧ load_db (.valid d) = (d, .valid d) :=
  ⟨rfl, rfl, rfl, rfl⟩

/-- Claim C9: evaluating the production configuration with no SECRET_KEY in
the environment succeeds with secret_key none instead of refusing: the
validation is commented out in the source, while secure cookies are
indeed forced on.  This exhibits the divergence between code and claim. -/
theorem production_config_accepts_missing_secret :
    productionConfig none = ⟨false, true, none⟩
    ∧ (productionConfig none).session_cookie_secure = true
    ∧ (productionConfig none).secret_key = none :=
  ⟨rfl, rfl, rfl⟩

/-- Claim C1: for an upload that passed the form and extension guards, with
used the fresh directory-size scan, the quota branch denies exactly when
used + size exceeds the limit, allows whenever used + size is at most
the limit, and in particular allows the boundary case of exact
equality. -/
theorem upload_quota_boundary (allowed : String → Bool) (orig : String)
    (used size limit : Nat) (dir : List String)
    (h1 : orig ≠ "") (h2 : allowed orig = true) :
    (upload_file allowed true orig used size limit dir = .quotaDenied ↔ used + size > limit)
    ∧ (used + size ≤ limit → (upload_file allowed true orig used size limit dir).isSaved = true)
    ∧ (used + size = limit → (upload_file allowed true orig used size limit dir).isSaved = true) := by
  by_cases hq : used + size > limit
  · refine ⟨by simp [upload_file, h1, h2, hq], ?_, ?_⟩
    · intro hc; omega
    · intro hc; omega
  · have hres : ∀ p, upload_file allowed true orig used size limit dir = p →
        p.isSaved = true := by
      intro p hp
      rw [← hp]
      simp only [upload_file, h1, h2, hq]
      simp only [not_true, not_false_iff, if_false, if_true, ite_false, ite_true]
      cases hdl : dup_loop dir orig (dir.length + 2) 0 with
      | none => simp [hdl, UploadOutcome.isSaved]
      | some r => simp [hdl, UploadOutcome.isSaved]
    refine ⟨?_, fun _ => hres _ rfl, fun _ => hres _ rfl⟩
    constructor
    · intro hfalse
      have := hres _ hfalse
      simp [UploadOutcome.isSaved] at this
    · intro hc; omega

/-- Claim C1 witness: a concrete boundary upload, five bytes used, five
incoming, limit ten, is accepted and saved. -/
theorem upload_quota_boundary_witness :
    (upload_file (fun _ => true) true "a.txt" 5 5 10 []).isSaved = true :=
  (upload_quota_boundary (fun _ => true) "a.txt" 5 5 10 [] (by decide) rfl).2.2 rfl

/-- Claim C3 counterexample: with MAX_USERS configured to twenty, a store of
ten users and a fresh username, the claim says registration succeeds
(count below the configured maximum), but create_user rejects with the
capacity message: its bound is the literal ten, independent of the
configuration. -/
theorem create_user_ignores_configured_max :
    MAX_USERS (some 20) = 20
    ∧ tenUsersDoc.users.length < MAX_USERS (some 20)
    ∧ alookup tenUsersDoc.users "alice" = none
    ∧ (create_user tenUsersDoc "alice" "a" "s" "h" 5 "t1").1 = false
    ∧ (create_user tenUsersDoc "alice" "a" "s" "h" 5 "t1").2.1
        = "Maximum number of users reached" := by
  refine ⟨rfl, by decide, by decide, ?_, ?_⟩ <;> decide

/-- Claim C3 amended: create_user fails with the duplicate message when the
username is present, fails with the capacity message when ten or more
users are registered (the bound is the fixed literal ten of the source,
not the configured MAX_USERS), and otherwise inserts a record with
storage_used zero and both timestamps set to now, returning the success
flag and message. -/
theorem create_user_spec (d : Doc) (u em sa pw : String) (lim : Nat) (now : String) :
    ((alookup d.users u).isSome →
      create_user d u em sa pw lim now = (false, "Username already exists", d))
    ∧ (alookup d.users u = none → d.users.length ≥ 10 →
      create_user d u em sa pw lim now = (false, "Maximum number of users reached", d))
    ∧ (alookup d.users u = none → d.users.length < 10 →
      (create_user d u em sa pw lim now).1 = true
      ∧ (create_user d u em sa pw lim now).2.1 = "User created successfully"
      ∧ alookup (create_user d u em sa pw lim now).2.2.users u
          = some ⟨em, sa, pw, now, now, 0, lim⟩
      ∧ (create_user d u em sa pw lim now).2.2.shared_folders = d.shared_folders) := by
  refine ⟨?_, ?_, ?_⟩
  · intro h; simp [create_user, h]
  · intro h hlen
    simp [create_user, h, hlen]
  · intro h hlen
    have hlen2 : ¬ d.users.length ≥ 10 := by omega
    simp [create_user, h, hlen2, alookup_aset_self]

/-- Claim C3 witness: creating alice in the empty store succeeds and records
storage_used zero with both timestamps equal to the clock value. -/
theorem create_user_spec_witness :
    alookup (create_user emptyDoc "alice" "a" "s" "h" 5 "t1").2.2.users "alice"
      = some ⟨"a", "s", "h", "t1", "t1", 0, 5⟩ :=
  ((create_user_spec emptyDoc "alice" "a" "s" "h" 5 "t1").2.2 rfl (by decide)).2.2.1

/-- Claim C10: for an absent username both update functions perform no save,
leaving the persisted document untouched; for a present username each
rewrites exactly the named field of that one record, and every other
field, every other user and the shared-folder map are unchanged. -/
theorem update_user_frame (d : Doc) (u now : String) (n : Nat) :
    (alookup d.users u = none →
      update_user_activity d u now = none ∧ update_user_storage d u n = none)
    ∧ (∀ r, alookup d.users u = some r →
      update_user_activity d u now
        = some { d with users := aset d.users u { r with last_active := now } }
      ∧ update_user_storage d u n
        = some { d with users := aset d.users u { r with storage_used := n } }
      ∧ (∀ d1, update_user_activity d u now = some d1 →
          alookup d1.users u = some { r with last_active := now }
          ∧ (∀ v, v ≠ u → alookup d1.users v = alookup d.users v)
          ∧ d1.shared_folders = d.shared_folders)
      ∧ (∀ d2, update_user_storage d u n = some d2 →
          alookup d2.users u = some { r with storage_used := n }
          ∧ (∀ v, v ≠ u → alookup d2.users v = alookup d.users v)
          ∧ d2.shared_folders = d.shared_folders)) := by
  constructor
  · intro h
    exact ⟨by simp [update_user_activity, h], by simp [update_user_storage, h]⟩
  · intro r hr
    have e1 : update_user_activity d u now
        = some { d with users := aset d.users u { r with last_active := now } } := by
      simp [update_user_activity, hr]
    have e2 : update_user_storage d u n
        = some { d with users := aset d.users u { r with storage_used := n } } := by
      simp [update_user_storage, hr]
    refine ⟨e1, e2, ?_, ?_⟩
    · intro d1 hd1
      rw [e1] at hd1
      cases hd1
      exact ⟨alookup_aset_self _ _ _, fun v hv => alookup_aset_ne _ _ _ _ hv, rfl⟩
    · intro d2 hd2
      rw [e2] at hd2
      cases hd2
      exact ⟨alookup_aset_self _ _ _, fun v hv => alookup_aset_ne _ _ _ _ hv, rfl⟩

/-- Claim C10 witness: concrete instantiations, one with an absent user where
nothing is saved, one with a present user where last_active alone
changes. -/
theorem update_user_frame_witness :
    update_user_activity exUserDoc "bob" "t1" = none
    ∧ update_user_activity exUserDoc "alice" "t1"
      = some { exUserDoc with
          users := aset exUserDoc.users "alice" { dummyUser with last_active := "t1" } } :=
  ⟨((update_user_frame exUserDoc "bob" "t1" 3).1 (by decide)).1,
   ((update_user_frame exUserDoc "alice" "t1" 3).2 dummyUser rfl).1⟩

/-- Claim C2 counterexample: bob is neither owner nor member of folder f1, yet
the delete_folder operation answers him with the not-owner outcome for
f1 and with the distinct not-found outcome for a nonexistent id, so the
claim that every shared-folder operation never distinguishes the two
fails on delete_folder. -/
theorem delete_folder_distinguishes :
    can_access_folder exDb "bob" "f1" = false
    ∧ get_shared_folder exDb "missing" = none
    ∧ (delete_folder ⟨exDb, ["f1"]⟩ "bob" "f1").1 = DeleteOutcome.notOwner
    ∧ (delete_folder ⟨exDb, ["f1"]⟩ "bob" "missing").1 = DeleteOutcome.notFound
    ∧ DeleteOutcome.notOwner ≠ DeleteOutcome.notFound := by
  refine ⟨by decide, by decide, by decide, by decide, by decide⟩

/-- Claim C2 amended: for the four shared-folder operations guarded by
can_access_folder (view, upload-to-shared, download, per-file delete), a
user who is neither owner nor member receives exactly the same generic
denial outcome as any request naming a nonexistent folder id; the
owner-only delete_folder handler is the exception recorded in the
counterexample. -/
theorem guarded_ops_uniform_denial (d : Doc) (u fid nofid : String)
    (allowed : String → Bool) (fileProvided : Bool) (orig fname : String)
    (dir : List String)
    (h1 : can_access_folder d u fid = false)
    (h2 : get_shared_folder d nofid = none) :
    view_shared_folder d u fid = .denied
    ∧ view_shared_folder d u nofid = .denied
    ∧ view_shared_folder d u fid = view_shared_folder d u nofid
    ∧ upload_to_shared d u fid allowed fileProvided orig dir = .accessDenied
    ∧ upload_to_shared d u nofid allowed fileProvided orig dir = .accessDenied
    ∧ download_shared_file d u fid dir fname = .accessDenied
    ∧ download_shared_file d u nofid dir fname = .accessDenied
    ∧ (delete_shared_file d u fid dir fname).1 = .accessDenied
    ∧ (delete_shared_file d u nofid dir fname).1 = .accessDenied
    ∧ (delete_shared_file d u fid dir fname).2 = dir
    ∧ (delete_shared_file d u nofid dir fname).2 = dir := by
  have hno : can_access_folder d u nofid = false := by
    simp [can_access_folder, h2]
  refine ⟨?_, ?_, ?_, ?_, ?_, ?_, ?_, ?_, ?_, ?_, ?_⟩ <;>
    simp [view_shared_folder, upload_to_shared, download_shared_file,
      delete_shared_file, h1, hno]

/-- Claim C2 witness: bob, neither owner nor member of f1, gets the same
denial for f1 as for a nonexistent id from the view, download and
per-file delete handlers. -/
theorem guarded_ops_uniform_denial_witness :
    view_shared_folder exDb "bob" "f1" = .denied
    ∧ view_shared_folder exDb "bob" "missing" = .denied
    ∧ download_shared_file exDb "bob" "f1" ["doc.txt"] "doc.txt" = .accessDenied
    ∧ (delete_shared_file exDb "bob" "missing" ["doc.txt"] "doc.txt").1 = .accessDenied :=
  ⟨(guarded_ops_uniform_denial exDb "bob" "f1" "missing" (fun _ => true) true "x" "doc.txt"
      ["doc.txt"] (by decide) (by decide)).1,
   (guarded_ops_uniform_denial exDb "bob" "f1" "missing" (fun _ => true) true "x" "doc.txt"
      ["doc.txt"] (by decide) (by decide)).2.1,
   (guarded_ops_uniform_denial exDb "bob" "f1" "missing" (fun _ => true) true "x" "doc.txt"
      ["doc.txt"] (by decide) (by decide)).2.2.2.2.2.1,
   (guarded_ops_uniform_denial exDb "bob" "f1" "missing" (fun _ => true) true "x" "doc.txt"
      ["doc.txt"] (by decide) (by decide)).2.2.2.2.2.2.2.2.1⟩

theorem mem_ensure_dir (l : List String) (x : String) : x ∈ ensure_dir l x := by
  unfold ensure_dir
  by_cases h : l.contains x = true <;> simp_all

theorem contains_ensure_dir (l : List String) (x : String) :
    (ensure_dir l x).contains x = true := by
  simpa using mem_ensure_dir l x

theorem contains_filter_ne (l : List String) (x : String) :
    (l.filter (fun y => decide (y ≠ x))).contains x = false := by
  simp [List.mem_filter]

/-- Claim C4: when the owner deletes an existing shared folder, the handler
reports success, the directory tree is removed and only afterwards the
metadata record (the event trace lists the tree removal strictly first),
both are gone from the resulting state, and every user, in particular
the owner and every previously shared-with member, is denied any
subsequent access to that folder id. -/
theorem delete_folder_owner (s : SysState) (u fid : String) (info : FolderRec)
    (h1 : get_shared_folder s.db fid = some info) (h2 : info.owner = u) :
    (delete_folder s u fid).1 = .deleted info.name
    ∧ get_shared_folder (delete_folder s u fid).2.1.db fid = none
    ∧ (delete_folder s u fid).2.1.dirs.contains fid = false
    ∧ (delete_folder s u fid).2.2 = [Ev.rmTree fid, Ev.dbDelete fid]
    ∧ (∀ v, can_access_folder (delete_folder s u fid).2.1.db v fid = false) := by
  have hsome : (alookup s.db.shared_folders fid).isSome := by
    unfold get_shared_folder at h1
    simp [h1]
  have hdel : delete_shared_folder s.db fid
      = ({ s.db with shared_folders := aremove s.db.shared_folders fid }, true) := by
    simp [delete_shared_folder, hsome]
  have hrun : delete_folder s u fid
      = (.deleted info.name,
         ⟨{ s.db with shared_folders := aremove s.db.shared_folders fid },
          (ensure_dir s.dirs fid).filter (fun y => decide (y ≠ fid))⟩,
         [Ev.rmTree fid, Ev.dbDelete fid]) := by
    unfold delete_folder
    rw [h1]
    simp [h2, mem_ensure_dir, hdel]
  rw [hrun]
  refine ⟨rfl, ?_, ?_, rfl, ?_⟩
  · exact alookup_aremove_self _ _
  · exact contains_filter_ne _ _
  · intro v
    simp [can_access_folder, get_shared_folder, alookup_aremove_self]

/-- Claim C4 witness: alice deletes her folder f1; the handler succeeds, the
trace removes the directory first, and carol, previously a member, is
denied access afterwards. -/
theorem delete_folder_owner_witness :
    (delete_folder ⟨exDb, ["f1"]⟩ "alice" "f1").1 = .deleted "Team"
    ∧ (delete_folder ⟨exDb, ["f1"]⟩ "alice" "f1").2.2 = [Ev.rmTree "f1", Ev.dbDelete "f1"]
    ∧ can_access_folder (delete_folder ⟨exDb, ["f1"]⟩ "alice" "f1").2.1.db "carol" "f1" = false :=
  ⟨(delete_folder_owner ⟨exDb, ["f1"]⟩ "alice" "f1" exFolder rfl rfl).1,
   (delete_folder_owner ⟨exDb, ["f1"]⟩ "alice" "f1" exFolder rfl rfl).2.2.2.1,
   (delete_folder_owner ⟨exDb, ["f1"]⟩ "alice" "f1" exFolder rfl rfl).2.2.2.2 "carol"⟩

/-! ## Folder-id lemmas (C6) -/

/-- The sixteen lowercase hex characters, zero to nine then a to f, as
Nat.digitChar produces them. -/
def hexAlphabet : List Char := (List.range 16).map Nat.digitChar

theorem digitChar_mem_hexAlphabet : ∀ m, m < 16 → Nat.digitChar m ∈ hexAlphabet := by
  intro m hm
  exact List.mem_map_of_mem _ (List.mem_range.mpr hm)

theorem hexDigitChar_mem (n : Nat) : hexDigitChar n ∈ hexAlphabet :=
  digitChar_mem_hexAlphabet (n % 16) (Nat.mod_lt n (by decide))

theorem length_token_hex_chars (bytes : List Nat) :
    (token_hex_chars bytes).length = 2 * bytes.length := by
  induction bytes with
  | nil => rfl
  | cons b rest ih => simp [token_hex_chars, ih]; omega

theorem token_hex_chars_mem (bytes : List Nat) :
    ∀ c ∈ token_hex_chars bytes, c ∈ hexAlphabet := by
  induction bytes with
  | nil => intro c hc; simp [token_hex_chars] at hc
  | cons b rest ih =>
      intro c hc
      simp only [token_hex_chars, List.mem_cons] at hc
      rcases hc with h | h | h
      · rw [h]; exact hexDigitChar_mem _
      · rw [h]; exact hexDigitChar_mem _
      · exact ih c h

/-- Claim C6 counterexample: the id generated for a shared folder is the hex
encoding of the eight random bytes the source draws, sixteen hex
characters and thus sixty-four bits, not the thirty-two characters a
128-bit hex token would be. -/
theorem folder_id_not_128bit :
    (create_folder emptyDoc "alice" "Team" ["bob"] (List.replicate folderIdBytes 0) "t1").map
        (fun p => p.1) = some (token_hex (List.replicate folderIdBytes 0))
    ∧ (token_hex (List.replicate folderIdBytes 0)).length = 16
    ∧ (token_hex (List.replicate folderIdBytes 0)).length ≠ 32
    ∧ 4 * (token_hex (List.replicate folderIdBytes 0)).length = 64 := by
  refine ⟨by decide, by decide, by decide, by decide⟩

/-- Claim C6 amended: every folder created by the create operation is keyed by
an unguessable random id obtained by hex-encoding the eight-byte random draw:
a 64-bit token of sixteen hex characters, under which the record is
persisted. -/
theorem create_folder_id_64bit (d : Doc) (u fname : String) (sw : List String)
    (bytes : List Nat) (now : String)
    (h1 : fname ≠ "") (h2 : sw ≠ []) (h3 : bytes.length = folderIdBytes) :
    create_folder d u fname sw bytes now
      = some (token_hex bytes, create_shared_folder d (token_hex bytes) fname u sw now)
    ∧ (token_hex bytes).length = 16
    ∧ (∀ c ∈ (token_hex bytes).data, c ∈ hexAlphabet)
    ∧ get_shared_folder (create_shared_folder d (token_hex bytes) fname u sw now)
        (token_hex bytes) = some ⟨fname, u, sw, now⟩ := by
  refine ⟨by simp [create_folder, h1, h2], ?_, ?_, ?_⟩
  · show (token_hex_chars bytes).length = 16
    rw [length_token_hex_chars, h3]
    rfl
  · exact token_hex_chars_mem bytes
  · simp [get_shared_folder, create_shared_folder, alookup_aset_self]

/-- Claim C6 witness: a concrete eight-byte draw yields a sixteen-character
hex id under which the folder record is found. -/
theorem create_folder_id_64bit_witness :
    (token_hex [255, 16, 1, 0, 171, 205, 239, 18]).length = 16
    ∧ get_shared_folder
        (create_shared_folder emptyDoc (token_hex [255, 16, 1, 0, 171, 205, 239, 18])
          "Team" "alice" ["bob"] "t1")
        (token_hex [255, 16, 1, 0, 171, 205, 239, 18]) = some ⟨"Team", "alice", ["bob"], "t1"⟩ :=
  ⟨(create_folder_id_64bit emptyDoc "alice" "Team" ["bob"]
      [255, 16, 1, 0, 171, 205, 239, 18] "t1" (by decide) (by decide) rfl).2.1,
   (create_folder_id_64bit emptyDoc "alice" "Team" ["bob"]
      [255, 16, 1, 0, 171, 205, 239, 18] "t1" (by decide) (by decide) rfl).2.2.2⟩

/-! ## safe_filename safety lemmas (C5) -/

theorem splitSegsAux_chars (l : List Char) :
    ∀ acc, ∀ s ∈ splitSegsAux l acc, ∀ c ∈ s, (c ∈ l ∧ isSep c = false) ∨ c ∈ acc := by
  induction l with
  | nil =>
      intro acc s hs c hc
      simp only [splitSegsAux, List.mem_singleton] at hs
      subst hs
      right
      simpa using hc
  | cons x rest ih =>
      intro acc s hs c hc
      simp only [splitSegsAux] at hs
      by_cases hx : isSep x = true
      · rw [if_pos (by simp [hx])] at hs
        rcases List.mem_cons.mp hs with h | h
        · subst h
          right
          simpa using hc
        · rcases ih [] s h c hc with ⟨hm, hsep⟩ | hfalse
          · exact Or.inl ⟨List.mem_cons_of_mem x hm, hsep⟩
          · simp at hfalse
      · rw [if_neg (by simp [hx])] at hs
        rcases ih (x :: acc) s hs c hc with ⟨hm, hsep⟩ | hacc
        · exact Or.inl ⟨List.mem_cons_of_mem x hm, hsep⟩
        · rcases List.mem_cons.mp hacc with h | h
          · subst h
            exact Or.inl ⟨List.mem_cons_self c rest, by simpa using hx⟩
          · exact Or.inr h

theorem joinSegs_chars (L : List (List Char)) :
    ∀ c ∈ joinSegs L, c = '_' ∨ ∃ s ∈ L, c ∈ s := by
  induction L with
  | nil => intro c hc; simp [joinSegs] at hc
  | cons s rest ih =>
      intro c hc
      cases rest with
      | nil =>
          right
          exact ⟨s, List.mem_cons_self s [], by simpa [joinSegs] using hc⟩
      | cons t rest2 =>
          simp only [joinSegs, List.mem_append, List.mem_cons] at hc
          rcases hc with h | h | h
          · exact Or.inr ⟨s, List.mem_cons_self _ _, h⟩
          · exact Or.inl h
          · rcases ih c h with h2 | ⟨s2, hs2, hcs2⟩
            · exact Or.inl h2
            · exact Or.inr ⟨s2, List.mem_cons_of_mem s hs2, hcs2⟩

theorem cleanName_chars (l : List Char) :
    ∀ c ∈ cleanName l, isSep c = false ∧ c ≠ NUL := by
  intro c hc
  unfold cleanName at hc
  rcases joinSegs_chars _ c hc with h | ⟨s, hs, hcs⟩
  · subst h
    refine ⟨by decide, by decide⟩
  · have hs2 := (List.mem_filter.mp hs).1
    rcases splitSegsAux_chars _ [] s hs2 c hcs with ⟨hm, hsep⟩ | hfalse
    · have := (List.mem_filter.mp hm).2
      exact ⟨hsep, by simpa using this⟩
    · simp at hfalse

theorem underscore_mem_joinSegs (s t : List Char) (rest : List (List Char)) :
    '_' ∈ joinSegs (s :: t :: rest) := by
  simp [joinSegs]

theorem cleanName_ne_dotdot (l : List Char) : cleanName l ≠ ['.', '.'] := by
  unfold cleanName
  cases hL : (splitSegsAux (l.filter (fun c => decide (c ≠ NUL))) []).filter goodSeg with
  | nil => simp [joinSegs]
  | cons s rest =>
      cases rest with
      | nil =>
          have hgood : goodSeg s = true := by
            have := List.mem_filter.mp (hL ▸ List.mem_cons_self s [])
            exact this.2
          have := of_decide_eq_true hgood
          simpa [joinSegs] using this.2.2
      | cons t rest2 =>
          intro he
          have hmem := underscore_mem_joinSegs s t rest2
          rw [he] at hmem
          simp at hmem

theorem splitExt_fst_subset (l : List Char) : ∀ c ∈ (splitExt l).1, c ∈ l := by
  intro c hc
  unfold splitExt at hc
  by_cases h : (l.reverse.takeWhile (fun c => decide (c ≠ '.'))).length = l.reverse.length
  · rw [if_pos h] at hc
    exact hc
  · rw [if_neg h] at hc
    have := List.mem_reverse.mp hc
    exact List.mem_reverse.mp (List.mem_of_mem_drop this)

theorem splitExt_snd_subset (l : List Char) :
    ∀ c ∈ (splitExt l).2, c = '.' ∨ c ∈ l := by
  intro c hc
  unfold splitExt at hc
  by_cases h : (l.reverse.takeWhile (fun c => decide (c ≠ '.'))).length = l.reverse.length
  · rw [if_pos h] at hc
    simp at hc
  · rw [if_neg h] at hc
    rcases List.mem_cons.mp hc with h2 | h2
    · exact Or.inl h2
    · have := List.mem_reverse.mp h2
      exact Or.inr (List.mem_reverse.mp (List.takeWhile_subset _ this))

theorem natDigitsAux_chars :
    ∀ fuel n, ∀ c ∈ natDigitsAux fuel n, ∃ m, m < 10 ∧ c = Nat.digitChar m := by
  intro fuel
  induction fuel with
  | zero => intro n c hc; simp [natDigitsAux] at hc
  | succ fuel ih =>
      intro n c hc
      cases n with
      | zero => simp [natDigitsAux] at hc
      | succ n =>
          rcases List.mem_cons.mp hc with h | h
          · exact ⟨(n + 1) % 10, Nat.mod_lt _ (by decide), h⟩
          · exact ih _ c h

theorem natDigits_chars (d : Nat) :
    ∀ c ∈ natDigits d, isSep c = false ∧ c ≠ NUL := by
  intro c hc
  obtain ⟨m, hm, rfl⟩ := natDigitsAux_chars d d c (List.mem_reverse.mp hc)
  clear hc
  revert m
  decide

/-- Claim C5: for every input string and every disambiguator, the name
returned by safe_filename contains no path separator and no null byte
and is not the dot-dot name, so it can only resolve inside the target
directory: traversal out of the parent is impossible. -/
theorem safe_filename_resolves_inside (s : String) (d : Nat) :
    resolvesInside (safe_filename s d) := by
  unfold safe_filename resolvesInside
  by_cases hd : d = 0
  · rw [if_pos hd]
    refine ⟨fun c hc => ?_, fun he => ?_⟩
    · exact cleanName_chars s.data c hc
    · have : cleanName s.data = ['.', '.'] := by
        have := congrArg String.data he
        simpa using this
      exact cleanName_ne_dotdot s.data this
  · rw [if_neg hd]
    constructor
    · intro c hc
      have hc2 : c ∈ (splitExt (cleanName s.data)).1 ∨ c = '_'
          ∨ c ∈ natDigits d ∨ c ∈ (splitExt (cleanName s.data)).2 := by
        simpa [List.mem_append, List.mem_cons, or_assoc] using hc
      rcases hc2 with h | h | h | h
      · exact cleanName_chars s.data c (splitExt_fst_subset _ c h)
      · subst h
        exact ⟨by decide, by decide⟩
      · exact natDigits_chars d c h
      · rcases splitExt_snd_subset _ c h with h3 | h3
        · subst h3
          exact ⟨by decide, by decide⟩
        · exact cleanName_chars s.data c h3
    · intro he
      have hdata : (splitExt (cleanName s.data)).1 ++ '_' :: (natDigits d ++ (splitExt (cleanName s.data)).2)
          = ['.', '.'] := by
        have := congrArg String.data he
        simpa using this
      have hmem : '_' ∈ (splitExt (cleanName s.data)).1 ++ '_' :: (natDigits d ++ (splitExt (cleanName s.data)).2) := by
        simp
      rw [hdata] at hmem
      simp at hmem

/-! ## Duplicate-avoidance loop termination (C8) -/

theorem charDigitVal_digitChar : ∀ m, m < 10 → charDigitVal (Nat.digitChar m) = m := by
  decide

theorem ofDigitsChar_natDigitsAux :
    ∀ fuel n, n ≤ fuel → ofDigitsChar (natDigitsAux fuel n) = n := by
  intro fuel
  induction fuel with
  | zero =>
      intro n hn
      interval_cases n
      rfl
  | succ fuel ih =>
      intro n hn
      cases n with
      | zero => rfl
      | succ n =>
          have hdiv : (n + 1) / 10 ≤ fuel := by
            have := Nat.div_lt_self (Nat.succ_pos n) (by decide : 1 < 10)
            omega
          simp only [natDigitsAux, ofDigitsChar]
          rw [charDigitVal_digitChar _ (Nat.mod_lt _ (by decide)), ih _ hdiv]
          exact Nat.mod_add_div (n + 1) 10

theorem natDigits_inj (m n : Nat) (h : natDigits m = natDigits n) : m = n := by
  have h2 : natDigitsAux m m = natDigitsAux n n := by
    have := congrArg List.reverse h
    simpa [natDigits] using this
  have := congrArg ofDigitsChar h2
  rwa [ofDigitsChar_natDigitsAux m m le_rfl, ofDigitsChar_natDigitsAux n n le_rfl] at this

theorem safe_filename_inj_pos (orig : String) (d1 d2 : Nat)
    (h1 : 1 ≤ d1) (h2 : 1 ≤ d2)
    (he : safe_filename orig d1 = safe_filename orig d2) : d1 = d2 := by
  unfold safe_filename at he
  rw [if_neg (by omega), if_neg (by omega)] at he
  have hdata := congrArg String.data he
  simp only at hdata
  rw [List.append_cancel_right_eq] at hdata
  rw [List.append_cancel_left_eq] at hdata
  injection hdata with h5 h4
  exact natDigits_inj d1 d2 h4

theorem exists_free_candidate (dir : List String) (orig : String) :
    ∃ k, 1 ≤ k ∧ k ≤ dir.length + 1 ∧ dir.contains (safe_filename orig k) = false := by
  by_contra hcon
  push_neg at hcon
  have hall : ∀ k, 1 ≤ k → k ≤ dir.length + 1 → safe_filename orig k ∈ dir := by
    intro k hk1 hk2
    have := hcon k hk1 hk2
    have hb : dir.contains (safe_filename orig k) = true := by
      simpa using this
    simpa using hb
  have hsub : (Finset.Icc 1 (dir.length + 1)).image (fun k => safe_filename orig k)
      ⊆ dir.toFinset := by
    intro x hx
    rw [Finset.mem_image] at hx
    obtain ⟨k, hk, rfl⟩ := hx
    rw [Finset.mem_Icc] at hk
    rw [List.mem_toFinset]
    exact hall k hk.1 hk.2
  have hinj : Set.InjOn (fun k => safe_filename orig k)
      ↑(Finset.Icc 1 (dir.length + 1)) := by
    intro a ha b hb hab
    rw [Finset.mem_coe, Finset.mem_Icc] at ha hb
    exact safe_filename_inj_pos orig a b ha.1 hb.1 hab
  have hcard1 := Finset.card_image_of_injOn hinj
  have hcard2 := Finset.card_le_card hsub
  have hcard3 := List.toFinset_card_le dir
  rw [hcard1, Nat.card_Icc] at hcard2
  omega

theorem dup_loop_finds (dir : List String) (orig : String) :
    ∀ fuel c k, k < fuel → dir.contains (safe_filename orig (c + k)) = false →
      (dup_loop dir orig fuel c).isSome = true := by
  intro fuel
  induction fuel with
  | zero => intro c k hk; omega
  | succ fuel ih =>
      intro c k hk hfree
      unfold dup_loop
      by_cases hc : dir.contains (safe_filename orig c) = true
      · simp only [hc, if_true]
        cases k with
        | zero =>
            rw [Nat.add_zero] at hfree
            rw [hfree] at hc
            exact absurd hc (by simp)
        | succ k =>
            exact ih (c + 1) k (by omega) (by rw [show c + 1 + k = c + (k + 1) by omega]; exact hfree)
      · have hc2 : ¬ safe_filename orig c ∈ dir := by simpa using hc
        simp [hc2]

theorem dup_loop_props (dir : List String) (orig : String) :
    ∀ fuel c res, dup_loop dir orig fuel c = some res →
      res.1 = safe_filename orig res.2 ∧ dir.contains res.1 = false ∧ c ≤ res.2
      ∧ ∀ j, c ≤ j → j < res.2 → dir.contains (safe_filename orig j) = true := by
  intro fuel
  induction fuel with
  | zero => intro c res h; simp [dup_loop] at h
  | succ fuel ih =>
      intro c res h
      unfold dup_loop at h
      by_cases hc : dir.contains (safe_filename orig c) = true
      · rw [if_pos (by simpa using hc)] at h
        obtain ⟨e1, e2, e3, e4⟩ := ih (c + 1) res h
        refine ⟨e1, e2, by omega, ?_⟩
        intro j hj1 hj2
        by_cases hjc : j = c
        · subst hjc; exact hc
        · exact e4 j (by omega) hj2
      · rw [if_neg (by simpa using hc)] at h
        cases h
        refine ⟨rfl, by simpa using hc, le_rfl, ?_⟩
        intro j hj1 hj2
        omega

/-- Claim C8: the duplicate-avoidance loop of the upload handlers terminates
for every directory state: when the initial candidate name for a file
already exists, incrementing the disambiguator and re-deriving
safe_filename reaches a name free in the directory after at least one
and at most (number of existing entries + 1) loop iterations (the
returned disambiguator counts the iterations executed), and the fuel the
handlers pass, two more than the entry count, is never exhausted. -/
theorem dup_loop_terminates (dir : List String) (orig : String)
    (h : dir.contains (safe_filename orig 0) = true) :
    (dup_loop dir orig (dir.length + 2) 0).isSome = true
    ∧ ∀ res, dup_loop dir orig (dir.length + 2) 0 = some res →
        dir.contains res.1 = false ∧ 1 ≤ res.2 ∧ res.2 ≤ dir.length + 1 := by
  obtain ⟨k, hk1, hk2, hkfree⟩ := exists_free_candidate dir orig
  have hsome := dup_loop_finds dir orig (dir.length + 2) 0 k (by omega)
    (by simpa using hkfree)
  refine ⟨hsome, ?_⟩
  intro res hrun
  obtain ⟨e1, e2, e3, e4⟩ := dup_loop_props dir orig (dir.length + 2) 0 res hrun
  have hc1 : 1 ≤ res.2 := by
    rcases Nat.eq_zero_or_pos res.2 with h0 | h1
    · rw [e1, h0] at e2
      rw [h] at e2
      exact absurd e2 (by simp)
    · exact h1
  have hc2 : res.2 ≤ dir.length + 1 := by
    by_contra hgt
    push_neg at hgt
    have := e4 k (by omega) (by omega)
    rw [hkfree] at this
    exact absurd this (by simp)
  exact ⟨e2, hc1, hc2⟩

/-- Claim C8 witness: a directory already holding the candidate name; the
loop finds a free name in one iteration, within the bound. -/
theorem dup_loop_terminates_witness :
    (["a.txt"] : List String).contains (safe_filename "a.txt" 0) = true
    ∧ (dup_loop ["a.txt"] "a.txt" ((["a.txt"] : List String).length + 2) 0).isSome = true :=
  ⟨by decide, (dup_loop_terminates ["a.txt"] "a.txt" (by decide)).1⟩

/-- Claim C5 witness: a concrete traversal attempt with dot-dot segments
and separators resolves inside the target directory. -/
theorem safe_filename_resolves_inside_witness :
    resolvesInside (safe_filename "../../etc/passwd" 0) :=
  safe_filename_resolves_inside "../../etc/passwd" 0

end ServX
